import Mathlib

/-!
Shallow embedding of the `gekkio-ftdi` safe wrapper around libftdi1
(`src/src/lib.rs`).  Each wrapper method is a thin translation of a driver
call's integer status code into a structured error; we model every method as
a pure function of the driver's return value `r : Int` together with the
driver-supplied error string `msg : String` (the value `error_msg` would
fetch).  The `read_exact` loop is modelled against a driver double: a script
of responses, one per underlying `read_data` call.
-/

/-- The error taxonomy of the wrapper (`FtdiError` in `src/src/lib.rs`):
`UsbDeviceUnavailable`, or `Other(code, message)` carrying the raw driver
status code and the driver's error string. -/
inductive FtdiError where
  | usbDeviceUnavailable : FtdiError
  | other : Int → String → FtdiError
deriving DecidableEq, Repr

/-- `Context::usb_reset`: driver code `-2` means the USB device is
unavailable; any other negative code is passed through as `Other`. -/
def usb_reset (r : Int) (msg : String) : Except FtdiError Unit :=
  if r = -2 then .error .usbDeviceUnavailable
  else if r < 0 then .error (.other r msg)
  else .ok ()

/-- `Context::usb_purge_rx_buffer`: sentinel `-2`. -/
def usb_purge_rx_buffer (r : Int) (msg : String) : Except FtdiError Unit :=
  if r = -2 then .error .usbDeviceUnavailable
  else if r < 0 then .error (.other r msg)
  else .ok ()

/-- `Context::usb_purge_tx_buffer`: sentinel `-2`. -/
def usb_purge_tx_buffer (r : Int) (msg : String) : Except FtdiError Unit :=
  if r = -2 then .error .usbDeviceUnavailable
  else if r < 0 then .error (.other r msg)
  else .ok ()

/-- `Context::usb_purge_buffers`: sentinel `-3`. -/
def usb_purge_buffers (r : Int) (msg : String) : Except FtdiError Unit :=
  if r = -3 then .error .usbDeviceUnavailable
  else if r < 0 then .error (.other r msg)
  else .ok ()

/-- `Context::usb_close`: the Rust source has no sentinel arm here — every
negative driver code becomes `Other`, every non-negative one `Ok(())`. -/
def usb_close (r : Int) (msg : String) : Except FtdiError Unit :=
  if r < 0 then .error (.other r msg)
  else .ok ()

/-- `Context::get_latency_timer`: sentinel `-2`; on success returns the `u8`
latency value the driver wrote into `result`. -/
def get_latency_timer (r : Int) (msg : String) (result : Nat) :
    Except FtdiError Nat :=
  if r = -2 then .error .usbDeviceUnavailable
  else if r < 0 then .error (.other r msg)
  else .ok result

/-- `Context::set_latency_timer`: sentinel `-3`. -/
def set_latency_timer (r : Int) (msg : String) : Except FtdiError Unit :=
  if r = -3 then .error .usbDeviceUnavailable
  else if r < 0 then .error (.other r msg)
  else .ok ()

/-- `Context::write_data`: sentinel `-666`; on any non-negative driver code
the byte count is discarded and `Ok(())` is returned. -/
def write_data (r : Int) (msg : String) : Except FtdiError Unit :=
  if r = -666 then .error .usbDeviceUnavailable
  else if r < 0 then .error (.other r msg)
  else .ok ()

/-- `Context::read_data`: sentinel `-666`; a non-negative driver code is the
number of bytes placed, returned as `Ok(len as usize)`. -/
def read_data (r : Int) (msg : String) : Except FtdiError Nat :=
  if r = -666 then .error .usbDeviceUnavailable
  else if r < 0 then .error (.other r msg)
  else .ok r.toNat

/-- C1: `usb_reset`, `usb_purge_rx_buffer` and `usb_purge_tx_buffer` return
`UsbDeviceUnavailable` exactly on driver code `-2`, `usb_purge_buffers`
exactly on `-3`; every other negative code yields `Other(code, msg)` with
code and message preserved, and every non-negative code yields `Ok(())`. -/
theorem reset_purge_sentinels (r : Int) (msg : String) :
    (usb_reset r msg = .error .usbDeviceUnavailable ↔ r = -2) ∧
    (usb_purge_rx_buffer r msg = .error .usbDeviceUnavailable ↔ r = -2) ∧
    (usb_purge_tx_buffer r msg = .error .usbDeviceUnavailable ↔ r = -2) ∧
    (usb_purge_buffers r msg = .error .usbDeviceUnavailable ↔ r = -3) ∧
    (r < 0 → r ≠ -2 →
      usb_reset r msg = .error (.other r msg) ∧
      usb_purge_rx_buffer r msg = .error (.other r msg) ∧
      usb_purge_tx_buffer r msg = .error (.other r msg)) ∧
    (r < 0 → r ≠ -3 → usb_purge_buffers r msg = .error (.other r msg)) ∧
    (0 ≤ r →
      usb_reset r msg = .ok () ∧
      usb_purge_rx_buffer r msg = .ok () ∧
      usb_purge_tx_buffer r msg = .ok () ∧
      usb_purge_buffers r msg = .ok ()) := by
  unfold usb_reset usb_purge_rx_buffer usb_purge_tx_buffer usb_purge_buffers
  refine ⟨?_, ?_, ?_, ?_, ?_, ?_, ?_⟩
  all_goals intros
  all_goals split_ifs
  all_goals try simp_all
  all_goals omega

/-- Witness for C1 at concrete driver codes. -/
theorem reset_purge_sentinels_witness :
    usb_reset (-2) "" = .error .usbDeviceUnavailable ∧
    usb_purge_buffers (-3) "" = .error .usbDeviceUnavailable ∧
    usb_reset (-5) "msg" = .error (.other (-5) "msg") ∧
    usb_purge_buffers 0 "" = .ok () :=
  ⟨(reset_purge_sentinels (-2) "").1.mpr rfl,
   (reset_purge_sentinels (-3) "").2.2.2.1.mpr rfl,
   ((reset_purge_sentinels (-5) "msg").2.2.2.2.1 (by decide) (by decide)).1,
   ((reset_purge_sentinels 0 "").2.2.2.2.2.2 (by decide)).2.2.2⟩

/-- C2 counterexample: no negative driver code makes `usb_close` return
`UsbDeviceUnavailable` — the source's `usb_close` has no sentinel arm. -/
theorem usb_close_no_sentinel :
    ¬ ∃ r : Int, ∃ msg : String,
      r < 0 ∧ usb_close r msg = .error .usbDeviceUnavailable := by
  rintro ⟨r, msg, hr, h⟩
  unfold usb_close at h
  split_ifs at h
  exact FtdiError.noConfusion (Except.error.inj h)

/-- C2 amended: `usb_close` maps every negative driver code to
`Other(code, msg)` and every non-negative code to `Ok(())`; it never
returns `UsbDeviceUnavailable`. -/
theorem usb_close_spec (r : Int) (msg : String) :
    (r < 0 → usb_close r msg = .error (.other r msg)) ∧
    (0 ≤ r → usb_close r msg = .ok ()) := by
  unfold usb_close
  constructor
  all_goals intro h
  all_goals split_ifs
  all_goals first | rfl | omega

/-- Witness for the amended C2 at concrete driver codes. -/
theorem usb_close_spec_witness :
    usb_close (-2) "m" = .error (.other (-2) "m") ∧ usb_close 0 "" = .ok () :=
  ⟨(usb_close_spec (-2) "m").1 (by decide), (usb_close_spec 0 "").2 (by decide)⟩

/-- C6: `write_data` returns `UsbDeviceUnavailable` exactly on driver code
`-666`, `Other(r, msg)` on every other negative code, and the same `Ok(())`
on every non-negative code (the byte count is discarded). -/
theorem write_data_spec (r : Int) (msg : String) :
    (write_data r msg = .error .usbDeviceUnavailable ↔ r = -666) ∧
    (r < 0 → r ≠ -666 → write_data r msg = .error (.other r msg)) ∧
    (0 ≤ r → write_data r msg = .ok ()) := by
  unfold write_data
  refine ⟨?_, ?_, ?_⟩
  all_goals intros
  all_goals split_ifs
  all_goals try simp_all
  all_goals omega

/-- Witness for C6 at concrete driver codes, including the spec's example
`-5` and a short-count success. -/
theorem write_data_spec_witness :
    write_data (-666) "" = .error .usbDeviceUnavailable ∧
    write_data (-5) "driver message" = .error (.other (-5) "driver message") ∧
    write_data 1 "" = .ok () :=
  ⟨(write_data_spec (-666) "").1.mpr rfl,
   (write_data_spec (-5) "driver message").2.1 (by decide) (by decide),
   (write_data_spec 1 "").2.2 (by decide)⟩

/-- C7: `read_data` returns `UsbDeviceUnavailable` exactly on driver code
`-666`, `Other(r, msg)` on every other negative code, and `Ok(r)` — the
driver's byte count — on every non-negative code. -/
theorem read_data_spec (r : Int) (msg : String) :
    (read_data r msg = .error .usbDeviceUnavailable ↔ r = -666) ∧
    (r < 0 → r ≠ -666 → read_data r msg = .error (.other r msg)) ∧
    (0 ≤ r → read_data r msg = .ok r.toNat) := by
  unfold read_data
  refine ⟨?_, ?_, ?_⟩
  all_goals intros
  all_goals split_ifs
  all_goals try simp_all
  all_goals omega

/-- Witness for C7 at concrete driver codes. -/
theorem read_data_spec_witness :
    read_data (-666) "" = .error .usbDeviceUnavailable ∧
    read_data (-1) "m" = .error (.other (-1) "m") ∧
    read_data 3 "" = .ok 3 :=
  ⟨(read_data_spec (-666) "").1.mpr rfl,
   (read_data_spec (-1) "m").2.1 (by decide) (by decide),
   (read_data_spec 3 "").2.2 (by decide)⟩

/-- C8: `get_latency_timer` uses sentinel `-2` (returning the driver's
latency byte on success) while `set_latency_timer` uses sentinel `-3`;
every other negative code maps to `Other(r, msg)` in both. -/
theorem latency_timer_sentinels (r : Int) (msg : String) (ms : Nat) :
    (get_latency_timer r msg ms = .error .usbDeviceUnavailable ↔ r = -2) ∧
    (set_latency_timer r msg = .error .usbDeviceUnavailable ↔ r = -3) ∧
    (r < 0 → r ≠ -2 →
      get_latency_timer r msg ms = .error (.other r msg)) ∧
    (r < 0 → r ≠ -3 → set_latency_timer r msg = .error (.other r msg)) ∧
    (0 ≤ r →
      get_latency_timer r msg ms = .ok ms ∧ set_latency_timer r msg = .ok ()) := by
  unfold get_latency_timer set_latency_timer
  refine ⟨?_, ?_, ?_, ?_, ?_⟩
  all_goals intros
  all_goals split_ifs
  all_goals try simp_all
  all_goals omega

/-- Witness for C8 at concrete driver codes: the two operations disagree on
which sentinel means "device gone". -/
theorem latency_timer_sentinels_witness :
    get_latency_timer (-2) "" 0 = .error .usbDeviceUnavailable ∧
    set_latency_timer (-2) "m" = .error (.other (-2) "m") ∧
    set_latency_timer (-3) "" = .error .usbDeviceUnavailable ∧
    get_latency_timer (-3) "m" 0 = .error (.other (-3) "m") ∧
    get_latency_timer 0 "" 16 = .ok 16 :=
  ⟨(latency_timer_sentinels (-2) "" 0).1.mpr rfl,
   (latency_timer_sentinels (-2) "m" 0).2.2.2.1 (by decide) (by decide),
   (latency_timer_sentinels (-3) "" 0).2.1.mpr rfl,
   (latency_timer_sentinels (-3) "m" 0).2.2.1 (by decide) (by decide),
   ((latency_timer_sentinels 0 "" 16).2.2.2.2 (by decide)).1⟩

/-- `ModemStatus` (a `bitflags` set in `src/src/lib.rs`): a 16-bit word in
which only twelve bit positions are defined flags. -/
structure ModemStatus where
  bits : Nat
deriving DecidableEq, Repr

namespace ModemStatus

/-- Error in receiver FIFO. -/
def RCVR_ERR : ModemStatus := ⟨0b1000000000000000⟩
/-- Transmitter empty. -/
def TEMT : ModemStatus := ⟨0b0100000000000000⟩
/-- Transmitter holding register. -/
def THRE : ModemStatus := ⟨0b0010000000000000⟩
/-- Break interrupt. -/
def BI : ModemStatus := ⟨0b0001000000000000⟩
/-- Framing error. -/
def FE : ModemStatus := ⟨0b0000100000000000⟩
/-- Parity error. -/
def PE : ModemStatus := ⟨0b0000010000000000⟩
/-- Overrun error. -/
def OE : ModemStatus := ⟨0b0000001000000000⟩
/-- Data ready. -/
def DR : ModemStatus := ⟨0b0000000100000000⟩
/-- Data Carrier Detect. -/
def DCD : ModemStatus := ⟨0b0000000010000000⟩
/-- Ring Indicator. -/
def RI : ModemStatus := ⟨0b0000000001000000⟩
/-- Data Set Ready. -/
def DSR : ModemStatus := ⟨0b0000000000100000⟩
/-- Clear To Send. -/
def CTS : ModemStatus := ⟨0b0000000000010000⟩

/-- The twelve declared flags, in declaration order. -/
def allFlags : List ModemStatus :=
  [RCVR_ERR, TEMT, THRE, BI, FE, PE, OE, DR, DCD, RI, DSR, CTS]

/-- `ModemStatus::all()` as generated by `bitflags`: the union of every
declared flag. -/
def all : ModemStatus := ⟨allFlags.foldr (fun f a => f.bits ||| a) 0⟩

/-- The union of the declared flags is the mask `0xFFF0`. -/
theorem all_bits : all.bits = 0xFFF0 := by decide

/-- `ModemStatus::from_bits_truncate` as generated by `bitflags`: keep the
defined flag bits, drop every unknown bit. -/
def from_bits_truncate (raw : Nat) : ModemStatus := ⟨raw &&& all.bits⟩

/-- `ModemStatus::contains` as generated by `bitflags`: every bit of the
flag is set. -/
def contains (s f : ModemStatus) : Bool := s.bits &&& f.bits == f.bits

end ModemStatus

/-- `Context::poll_modem_status`: sentinel `-2`; on success the raw `u16`
status word the driver wrote is decoded with `from_bits_truncate`. -/
def poll_modem_status (r : Int) (msg : String) (raw : Nat) :
    Except FtdiError ModemStatus :=
  if r = -2 then .error .usbDeviceUnavailable
  else if r < 0 then .error (.other r msg)
  else .ok (ModemStatus.from_bits_truncate raw)

/-- Masking with a word that misses bit `k` clears bit `k`. -/
theorem testBit_and_false (n m k : Nat) (h : m.testBit k = false) :
    (n &&& m).testBit k = false := by
  rw [Nat.testBit_land, h, Bool.and_false]

/-- Truncation is transparent for any flag contained in the mask. -/
theorem contains_truncate (raw fb : Nat) (hf : 0xFFF0 &&& fb = fb) :
    (raw &&& 0xFFF0) &&& fb = raw &&& fb := by
  rw [Nat.land_assoc, hf]

/-- C9: a successful `poll_modem_status` decodes the raw status word into
exactly the defined flags whose bits are set — for each defined flag,
membership in the decoded set coincides with the flag's bit in the raw
word; in particular raw `0b0000000100010000` decodes to exactly
`{DR, CTS}`, with the other ten flags clear. -/
theorem poll_modem_status_decodes (r : Int) (msg : String) (raw : Nat) :
    (0 ≤ r →
      poll_modem_status r msg raw = .ok (ModemStatus.from_bits_truncate raw)) ∧
    (∀ f ∈ ModemStatus.allFlags,
      (ModemStatus.from_bits_truncate raw).contains f =
        (ModemStatus.mk raw).contains f) ∧
    (∀ f ∈ ModemStatus.allFlags,
      ((ModemStatus.from_bits_truncate 0b0000000100010000).contains f = true ↔
        (f = ModemStatus.DR ∨ f = ModemStatus.CTS))) := by
  refine ⟨?_, ?_, ?_⟩
  · intro h
    unfold poll_modem_status
    split_ifs
    all_goals first | rfl | omega
  · intro f hf
    fin_cases hf
    all_goals
      simp only [ModemStatus.contains, ModemStatus.from_bits_truncate,
        ModemStatus.all_bits, ModemStatus.RCVR_ERR, ModemStatus.TEMT,
        ModemStatus.THRE, ModemStatus.BI, ModemStatus.FE, ModemStatus.PE,
        ModemStatus.OE, ModemStatus.DR, ModemStatus.DCD, ModemStatus.RI,
        ModemStatus.DSR, ModemStatus.CTS]
    all_goals rw [contains_truncate _ _ (by decide)]
  · intro f hf
    fin_cases hf
    all_goals decide

/-- Witness for C9 at the spec's example word `0x110`. -/
theorem poll_modem_status_decodes_witness :
    poll_modem_status 0 "" 272 = .ok (ModemStatus.from_bits_truncate 272) ∧
    ((ModemStatus.from_bits_truncate 272).contains ModemStatus.DR =
      (ModemStatus.mk 272).contains ModemStatus.DR) ∧
    ((ModemStatus.from_bits_truncate 272).contains ModemStatus.CTS = true ↔
      (ModemStatus.CTS = ModemStatus.DR ∨ ModemStatus.CTS = ModemStatus.CTS)) :=
  ⟨(poll_modem_status_decodes 0 "" 272).1 (by decide),
   (poll_modem_status_decodes 0 "" 272).2.1 ModemStatus.DR (by decide),
   (poll_modem_status_decodes 0 "" 272).2.2 ModemStatus.CTS (by decide)⟩

/-- C10: on any successful poll (non-negative driver code) the four low
bits of the raw word are discarded: the poll still succeeds, the decoded
result has every bit below position 4 clear, and masking the raw word's
unknown bits away beforehand gives the same result. -/
theorem poll_modem_status_low_bits (r : Int) (msg : String) (raw : Nat) :
    0 ≤ r →
      poll_modem_status r msg raw = .ok (ModemStatus.from_bits_truncate raw) ∧
      (∀ i < 4, (ModemStatus.from_bits_truncate raw).bits.testBit i = false) ∧
      ModemStatus.from_bits_truncate (raw &&& 0xFFF0) =
        ModemStatus.from_bits_truncate raw := by
  intro h
  refine ⟨?_, ?_, ?_⟩
  · unfold poll_modem_status
    split_ifs
    all_goals first | rfl | omega
  · intro i hi
    simp only [ModemStatus.from_bits_truncate, ModemStatus.all_bits]
    interval_cases i
    all_goals exact testBit_and_false _ _ _ (by decide)
  · simp only [ModemStatus.from_bits_truncate, ModemStatus.all_bits]
    rw [Nat.land_assoc, show (65520 : Nat) &&& 65520 = 65520 by decide]

/-- Witness for C10 at a raw word with all four low bits set. -/
theorem poll_modem_status_low_bits_witness :
    poll_modem_status 0 "" 0b1111 = .ok (ModemStatus.from_bits_truncate 0b1111) ∧
    (∀ i < 4, (ModemStatus.from_bits_truncate 0b1111).bits.testBit i = false) ∧
    ModemStatus.from_bits_truncate (0b1111 &&& 0xFFF0) =
      ModemStatus.from_bits_truncate 0b1111 :=
  poll_modem_status_low_bits 0 "" 0b1111 (by decide)

/-- The driver entry points the wrapper can invoke (the `sys::ftdi_*`
functions called from `src/src/lib.rs`). -/
inductive DriverCall where
  | ftdi_init
  | ftdi_deinit
  | ftdi_set_interface
  | ftdi_usb_open
  | ftdi_usb_reset
  | ftdi_usb_purge_rx_buffer
  | ftdi_usb_purge_tx_buffer
  | ftdi_usb_purge_buffers
  | ftdi_usb_close
  | ftdi_read_chipid
  | ftdi_get_latency_timer
  | ftdi_set_latency_timer
  | ftdi_set_bitmode
  | ftdi_disable_bitbang
  | ftdi_read_pins
  | ftdi_poll_modem_status
  | ftdi_setdtr_rts
  | ftdi_setdtr
  | ftdi_setrts
  | ftdi_setflowctrl
  | ftdi_set_event_char
  | ftdi_set_error_char
  | ftdi_write_data
  | ftdi_read_data
deriving DecidableEq, Repr

/-- The public methods callable on a live `Context` between construction
and drop. -/
inductive SessionOp where
  | set_interface
  | usb_open
  | usb_reset
  | usb_purge_rx_buffer
  | usb_purge_tx_buffer
  | usb_purge_buffers
  | usb_close
  | read_chip_id
  | get_latency_timer
  | set_latency_timer
  | set_bit_mode
  | disable_bit_bang
  | read_pins
  | poll_modem_status
  | set_dtr_rts
  | set_dtr
  | set_rts
  | set_flow_control
  | set_event_char
  | set_error_char
  | write_data
  | read_data
deriving DecidableEq, Repr

/-- The single driver call each `Context` method performs. -/
def methodCall : SessionOp → DriverCall
  | .set_interface => .ftdi_set_interface
  | .usb_open => .ftdi_usb_open
  | .usb_reset => .ftdi_usb_reset
  | .usb_purge_rx_buffer => .ftdi_usb_purge_rx_buffer
  | .usb_purge_tx_buffer => .ftdi_usb_purge_tx_buffer
  | .usb_purge_buffers => .ftdi_usb_purge_buffers
  | .usb_close => .ftdi_usb_close
  | .read_chip_id => .ftdi_read_chipid
  | .get_latency_timer => .ftdi_get_latency_timer
  | .set_latency_timer => .ftdi_set_latency_timer
  | .set_bit_mode => .ftdi_set_bitmode
  | .disable_bit_bang => .ftdi_disable_bitbang
  | .read_pins => .ftdi_read_pins
  | .poll_modem_status => .ftdi_poll_modem_status
  | .set_dtr_rts => .ftdi_setdtr_rts
  | .set_dtr => .ftdi_setdtr
  | .set_rts => .ftdi_setrts
  | .set_flow_control => .ftdi_setflowctrl
  | .set_event_char => .ftdi_set_event_char
  | .set_error_char => .ftdi_set_error_char
  | .write_data => .ftdi_write_data
  | .read_data => .ftdi_read_data

/-- The complete lifecycle trace of one `Context` session, as dictated by
the source: `Context::new` calls `ftdi_init`, each method performs its one
driver call (whatever status code `r` the driver answers), and Rust's
ownership guarantees `Drop::drop` — which calls `ftdi_deinit` — runs once
when the session ends.  The operations are paired with the driver status
each returned; the trace does not depend on those codes. -/
def sessionTrace (ops : List (SessionOp × Int)) : List DriverCall :=
  DriverCall.ftdi_init :: (ops.map fun o => methodCall o.1) ++
    [DriverCall.ftdi_deinit]

/-- No public method's driver call is the deinitializer. -/
theorem methodCall_ne_deinit (op : SessionOp) :
    methodCall op ≠ DriverCall.ftdi_deinit := by
  cases op
  all_goals decide

/-- C3: every complete lifecycle trace — whatever methods were called,
including none at all, and whatever status codes the driver returned —
contains exactly one `ftdi_deinit` step, and it is the final step. -/
theorem sessionTrace_deinit_once (ops : List (SessionOp × Int)) :
    (sessionTrace ops).count DriverCall.ftdi_deinit = 1 ∧
    (sessionTrace ops).getLast? = some DriverCall.ftdi_deinit := by
  constructor
  · have hmap : (ops.map fun o => methodCall o.1).count DriverCall.ftdi_deinit
        = 0 := by
      rw [List.count_eq_zero]
      intro hmem
      obtain ⟨o, _, ho⟩ := List.mem_map.mp hmem
      exact methodCall_ne_deinit o.1 ho
    unfold sessionTrace
    rw [List.count_append, List.count_cons, hmap]
    decide
  · unfold sessionTrace
    rw [List.getLast?_concat]

/-- One response of the driver double to an underlying `read_data` call
inside `read_exact`: either the bytes it places into the supplied slice
(reporting their count as its status), or a wrapper-level error. -/
inductive ReadResp where
  | bytes : List Nat → ReadResp
  | fail : FtdiError → ReadResp

/-- Writing `data` into the buffer starting at position `pos`, as the
driver does inside the slice `&mut buf[pos..]`. -/
def writeAt (buf : List Nat) (pos : Nat) (data : List Nat) : List Nat :=
  buf.take pos ++ data ++ buf.drop (pos + data.length)

/-- The loop of `Context::read_exact`, run against a driver-double script:
while `pos < buf.len()`, perform one `read_data` call into the unfilled
slice; an error is returned as-is, otherwise `pos` advances by the byte
count.  The third component counts the `read_data` calls performed.
`none` means the script ran out while the buffer was still unfilled (the
real loop would keep blocking on the driver). -/
def read_exactLoop (script : List ReadResp) (buf : List Nat) (pos : Nat) :
    Option (Except FtdiError Unit × List Nat × Nat) :=
  if pos < buf.length then
    match script with
    | [] => none
    | .fail e :: _ => some (.error e, buf, 1)
    | .bytes data :: rest =>
      match read_exactLoop rest (writeAt buf pos data) (pos + data.length) with
      | none => none
      | some (res, b, k) => some (res, b, k + 1)
  else some (.ok (), buf, 0)

/-- `Context::read_exact`: run the loop from position `0`. -/
def read_exact (script : List ReadResp) (buf : List Nat) :
    Option (Except FtdiError Unit × List Nat × Nat) :=
  read_exactLoop script buf 0

/-- `writeAt` preserves the buffer length when the data fits. -/
theorem writeAt_length (buf data : List Nat) (pos : Nat)
    (h : pos + data.length ≤ buf.length) :
    (writeAt buf pos data).length = buf.length := by
  unfold writeAt
  simp only [List.length_append, List.length_take, List.length_drop]
  omega

/-- The filled prefix after `writeAt`: the old prefix followed by the new
data. -/
theorem writeAt_take (buf data : List Nat) (pos : Nat)
    (hpos : pos ≤ buf.length) :
    (writeAt buf pos data).take (pos + data.length) = buf.take pos ++ data := by
  unfold writeAt
  exact List.take_left' (by simp; omega)

/-- The unfilled suffix after `writeAt`: dropping past the written data is
dropping from the original buffer. -/
theorem writeAt_drop (buf data : List Nat) (pos n : Nat)
    (hpos : pos ≤ buf.length) :
    (writeAt buf pos data).drop (pos + data.length + n) =
      buf.drop (pos + data.length + n) := by
  unfold writeAt
  have h1 : ((buf.take pos ++ data) ++ buf.drop (pos + data.length)).drop
      (pos + data.length) = buf.drop (pos + data.length) :=
    List.drop_left' (by simp; omega)
  rw [← List.drop_drop, h1, List.drop_drop]

/-- When the scripted reads exactly account for the unfilled part of the
buffer, the loop succeeds and fills it with their concatenation. -/
theorem read_exactLoop_ok (ls : List (List Nat)) :
    ∀ (buf : List Nat) (pos : Nat), pos ≤ buf.length →
      (ls.map List.length).sum = buf.length - pos →
      ∃ k, read_exactLoop (ls.map ReadResp.bytes) buf pos =
        some (.ok (), buf.take pos ++ ls.flatten, k) := by
  induction ls with
  | nil =>
    intro buf pos hle hsum
    have hpos : pos = buf.length := by simp at hsum; omega
    refine ⟨0, ?_⟩
    unfold read_exactLoop
    rw [if_neg (by omega)]
    subst hpos
    rw [List.take_length, List.flatten_nil, List.append_nil]
  | cons l ls ih =>
    intro buf pos hle hsum
    simp only [List.map_cons, List.sum_cons] at hsum
    by_cases hlt : pos < buf.length
    · have hfit : pos + l.length ≤ buf.length := by omega
      have hlen := writeAt_length buf l pos hfit
      obtain ⟨k, hk⟩ := ih (writeAt buf pos l) (pos + l.length)
        (by omega) (by omega)
      refine ⟨k + 1, ?_⟩
      unfold read_exactLoop
      rw [if_pos hlt]
      simp only [List.map_cons]
      rw [hk, writeAt_take buf l pos (by omega)]
      rw [List.flatten_cons, ← List.append_assoc]
    · have hpos : pos = buf.length := by omega
      have hl : l.length = 0 := by omega
      have hls : ls.flatten = [] := by
        have hlen := List.length_flatten ls
        have : (ls.map List.length).sum = 0 := by omega
        rw [this] at hlen
        exact List.length_eq_zero.mp hlen
      refine ⟨0, ?_⟩
      unfold read_exactLoop
      rw [if_neg (by omega)]
      rw [List.flatten_cons, hls, List.length_eq_zero.mp hl]
      subst hpos
      rw [List.take_length, List.nil_append, List.append_nil]

/-- When the script errors before the buffer is full, the loop stops at the
failing call: the error comes back as-is, the responses after it are never
consumed, and the bytes already placed stay in the buffer. -/
theorem read_exactLoop_fail (ls : List (List Nat)) (e : FtdiError)
    (tail : List ReadResp) :
    ∀ (buf : List Nat) (pos : Nat),
      pos + (ls.map List.length).sum < buf.length →
      read_exactLoop (ls.map ReadResp.bytes ++ ReadResp.fail e :: tail)
          buf pos =
        some (.error e,
          buf.take pos ++ ls.flatten ++
            buf.drop (pos + (ls.map List.length).sum),
          ls.length + 1) := by
  induction ls with
  | nil =>
    intro buf pos hlt
    simp only [List.map_nil, List.sum_nil, Nat.add_zero] at hlt ⊢
    unfold read_exactLoop
    rw [if_pos hlt]
    simp only [List.nil_append, List.flatten_nil, List.append_nil]
    rw [List.take_append_drop]
    rfl
  | cons l ls ih =>
    intro buf pos hlt
    simp only [List.map_cons, List.sum_cons] at hlt ⊢
    have hfit : pos + l.length ≤ buf.length := by omega
    have hlen := writeAt_length buf l pos hfit
    have hrec := ih (writeAt buf pos l) (pos + l.length) (by omega)
    unfold read_exactLoop
    rw [if_pos (by omega)]
    simp only [List.cons_append]
    rw [hrec, writeAt_take buf l pos (by omega)]
    have hdrop : (writeAt buf pos l).drop
        (pos + l.length + (ls.map List.length).sum) =
        buf.drop (pos + l.length + (ls.map List.length).sum) :=
      writeAt_drop buf l pos ((ls.map List.length).sum) (by omega)
    have harith : pos + l.length + (ls.map List.length).sum =
        pos + (l.length + (ls.map List.length).sum) := by omega
    rw [hdrop, List.flatten_cons, ← List.append_assoc, harith]
    rfl

/-- C4: if the driver double answers `read_exact` with error-free short
reads whose lengths sum to the buffer's length, `read_exact` returns `Ok`
and the buffer afterwards is exactly the concatenation, in call order, of
the byte sequences the driver produced. -/
theorem read_exact_fills (ls : List (List Nat)) (buf : List Nat)
    (h : (ls.map List.length).sum = buf.length) :
    ∃ k, read_exact (ls.map ReadResp.bytes) buf =
      some (.ok (), ls.flatten, k) := by
  have hmain := read_exactLoop_ok ls buf 0 (Nat.zero_le _) (by omega)
  simpa [read_exact] using hmain

/-- Witness for C4: the spec's example of short reads of 3, 5 and 2 bytes
into a 10-byte buffer. -/
theorem read_exact_fills_witness :
    ((([[1, 2, 3], [4, 5, 6, 7, 8], [9, 10]] : List (List Nat)).map
        List.length).sum = (List.replicate 10 0).length) ∧
    ∃ k, read_exact
        (([[1, 2, 3], [4, 5, 6, 7, 8], [9, 10]] : List (List Nat)).map
          ReadResp.bytes)
        (List.replicate 10 0) =
      some (.ok (), ([[1, 2, 3], [4, 5, 6, 7, 8], [9, 10]] :
        List (List Nat)).flatten, k) :=
  ⟨by decide, read_exact_fills _ _ (by decide)⟩

/-- C5: if some underlying `read_data` call inside `read_exact` fails with
`e` while the buffer is still unfilled, `read_exact` returns exactly `e`
(unwrapped), performs no further `read_data` calls after the failing one —
the call count is the failing call's index and the responses after the
error are never consumed — and the bytes placed by the earlier successful
calls remain in the buffer, the rest of which is untouched. -/
theorem read_exact_propagates (ls : List (List Nat)) (e : FtdiError)
    (tail : List ReadResp) (buf : List Nat)
    (h : (ls.map List.length).sum < buf.length) :
    read_exact (ls.map ReadResp.bytes ++ ReadResp.fail e :: tail) buf =
      some (.error e,
        ls.flatten ++ buf.drop (ls.map List.length).sum,
        ls.length + 1) := by
  have hmain := read_exactLoop_fail ls e tail buf 0 (by omega)
  simpa [read_exact] using hmain

/-- Witness for C5: two bytes arrive, the second call fails, a queued third
response is never read. -/
theorem read_exact_propagates_witness :
    ((([[1, 2]] : List (List Nat)).map List.length).sum <
      (List.replicate 5 0).length) ∧
    read_exact (([[1, 2]] : List (List Nat)).map ReadResp.bytes ++
        ReadResp.fail (.other (-5) "m") :: [ReadResp.bytes [9]])
        (List.replicate 5 0) =
      some (.error (.other (-5) "m"),
        ([[1, 2]] : List (List Nat)).flatten ++
          (List.replicate 5 0).drop (([[1, 2]] : List (List Nat)).map
            List.length).sum,
        List.length [[1, 2]] + 1) :=
  ⟨by decide, read_exact_propagates [[1, 2]] (.other (-5) "m")
    [ReadResp.bytes [9]] (List.replicate 5 0) (by decide)⟩
